import Mathlib

/-!
Verification development for the goProbe storage engine.

The definitions below shallowly embed the Go sources of the repository:
`pkg/goDB/storage/gpfile` (block files and their sidecar headers),
`pkg/goDB/keyval.go` (flow keys and sorting), `pkg/goDB/db_writer.go`
(the DB writer) and `pkg/query/args.go` (query statement preparation).
Machine integers are modelled as `Int`/`Nat`; byte slices as `List Nat`;
fallible operations return `Except`.
-/

namespace GoProbe

/-! ## Block files (`pkg/goDB/storage/gpfile`, src/unnamed/part_000)

A `GPFile` consists of a data file (`.gpf`, append-only concatenation of
compressed block payloads) and a sidecar JSON header (`.meta`).  The header
records, per block timestamp, the offset, compressed length, raw length and
encoder type of the block.  We embed the state of one block file opened in
write mode; compression (`encoder.Encoder.Compress`, an external LZ4/zstd
library) is an arbitrary function from raw bytes to the bytes it appends. -/

/-- Encoder type tags (`pkg/goDB/encoder/encoders`): `none=0, lz4=1, zstd=2`. -/
def defaultEncoderType : Nat := 1

/-- `storage.Block`: metadata of one block inside a GPFile
(offset, compressed length `Len`, uncompressed length `RawLen`, encoder). -/
structure Block where
  offset : Int
  len : Nat
  rawLen : Nat
  encoderType : Nat
deriving Repr, DecidableEq

/-- State of a `GPFile` opened in write mode: the bytes of the `.gpf` data
file, the header's block map (`map[int64]storage.Block`) and the header's
`CurrentOffset` and `Version` fields. -/
structure GPFileState where
  fileData : List Nat
  blocks : Int → Option Block
  currentOffset : Int
  version : Nat

/-- A freshly created block file: empty data file, and the fresh header
initialized by `readHeader` (empty block map, `Version: headerVersion = 1`). -/
def freshGPFile : GPFileState :=
  { fileData := []
    blocks := fun _ => none
    currentOffset := 0
    version := 1 }

/-- `GPFile.WriteBlock` (write mode): if the block data is empty, only record
a block `{Offset: CurrentOffset, EncoderType: default}` (zero `Len`/`RawLen`)
in the header; otherwise append the compressed payload to the data file,
record `{Offset: CurrentOffset, Len: nWritten, RawLen: len(blockData),
EncoderType: default}` and advance `CurrentOffset` by `nWritten`. -/
def writeBlock (compress : List Nat → List Nat) (st : GPFileState)
    (timestamp : Int) (blockData : List Nat) : GPFileState :=
  if blockData.length = 0 then
    { st with
      blocks := fun ts =>
        if ts = timestamp then
          some { offset := st.currentOffset, len := 0, rawLen := 0,
                 encoderType := defaultEncoderType }
        else st.blocks ts }
  else
    let comp := compress blockData
    { fileData := st.fileData ++ comp
      blocks := fun ts =>
        if ts = timestamp then
          some { offset := st.currentOffset, len := comp.length,
                 rawLen := blockData.length, encoderType := defaultEncoderType }
        else st.blocks ts
      currentOffset := st.currentOffset + comp.length
      version := st.version }

/-- A sequence of `WriteBlock` calls applied in order. -/
def applyWrites (compress : List Nat → List Nat)
    (writes : List (Int × List Nat)) (st : GPFileState) : GPFileState :=
  writes.foldl (fun s w => writeBlock compress s w.1 w.2) st

/-- The compressed length recorded for one write: empty block data appends
nothing; non-empty data appends its compressed output. -/
def writeLen (compress : List Nat → List Nat) (w : Int × List Nat) : Nat :=
  if w.2.length = 0 then 0 else (compress w.2).length

/-- Sum of the compressed lengths of a sequence of writes, in order. -/
def sumWriteLens (compress : List Nat → List Nat)
    (writes : List (Int × List Nat)) : Nat :=
  (writes.map (writeLen compress)).sum

/-! ### Header reading (`GPFile.readHeader`) -/

/-- Access modes of a GPFile (`ModeRead` / `ModeWrite`). -/
inductive AccessMode where
  | read
  | write
deriving DecidableEq

/-- Result of `ioutil.ReadFile` on the sidecar header file: the file's bytes,
a does-not-exist error, or any other I/O error. -/
inductive ReadFileResult where
  | ok (data : List Nat)
  | notExist
  | ioError (msg : String)

/-- Errors produced by `GPFile.readHeader`. -/
inductive HeaderError where
  | unmarshalError (msg : String)
  | propagated (msg : String)
  | missingHeader
deriving DecidableEq

/-- The header as carried by a `GPFile` (block map, current offset, version),
without the data file. -/
structure BlockHeader where
  blocks : Int → Option Block
  currentOffset : Int
  version : Nat

/-- The fresh header initialized by `readHeader` when no sidecar exists in
write mode. -/
def freshHeader : BlockHeader :=
  { blocks := fun _ => none, currentOffset := 0, version := 1 }

/-- `GPFile.readHeader`: read the sidecar `.meta`; on success unmarshal it;
if it does not exist, fail with a missing-header error in read mode and
initialize a fresh header (`version = 1`, empty block map) in write mode;
propagate any other read error. -/
def readHeader (unmarshal : List Nat → Except String BlockHeader)
    (mode : AccessMode) (r : ReadFileResult) : Except HeaderError BlockHeader :=
  match r with
  | .ok data =>
    match unmarshal data with
    | .ok h => .ok h
    | .error e => .error (.unmarshalError e)
  | .ioError e => .error (.propagated e)
  | .notExist =>
    if mode = .read then .error .missingHeader
    else .ok freshHeader

/-! ### Header writing (`GPFile.writeHeader`) and its filesystem trace -/

/-- Filesystem operations relevant to sidecar header rewriting. -/
inductive FsOp where
  | writeFile (path : String) (data : List Nat)
  | rename (src : String) (dst : String)
deriving DecidableEq

/-- Whether a filesystem operation is a rename. -/
def FsOp.isRename : FsOp → Bool
  | .writeFile _ _ => false
  | .rename _ _ => true

/-- `GPFile.writeHeader`: marshal the header and write it to
`filename + ".meta"` with a single direct `ioutil.WriteFile` call.  The
resulting filesystem trace is that one write; no temporary file and no
rename are involved. -/
def writeHeaderOps (marshal : BlockHeader → List Nat) (filename : String)
    (h : BlockHeader) : List FsOp :=
  [FsOp.writeFile (filename ++ ".meta") (marshal h)]

/-- Contents of the sidecar file when a truncating whole-file write
(`ioutil.WriteFile`) of `newData` over `oldData` is interrupted after `k`
bytes have been written: the file holds the first `k` bytes of the new
data (the old contents are gone once the file is truncated). -/
def interruptedWriteFile (newData : List Nat) (k : Nat) : List Nat :=
  newData.take k

/-- The header carried by a `GPFile` state (the part `writeHeader`
marshals to the sidecar). -/
def headerOf (st : GPFileState) : BlockHeader :=
  { blocks := st.blocks, currentOffset := st.currentOffset,
    version := st.version }

/-- The sidecar `.meta` filesystem trace of one `WriteBlock` call: both
branches of `WriteBlock` end with `writeHeader()` — the empty branch via
`return g.writeHeader()` right after recording the zero block, the
non-empty branch after recording the block and advancing the offset — so
each call flushes the updated in-memory header to the sidecar. -/
def writeBlockSidecarOps (compress : List Nat → List Nat)
    (marshal : BlockHeader → List Nat) (filename : String)
    (st : GPFileState) (timestamp : Int) (blockData : List Nat) :
    List FsOp :=
  writeHeaderOps marshal filename
    (headerOf (writeBlock compress st timestamp blockData))

/-! ## Flow keys and sorting (`pkg/goDB/keyval.go`)

`Key` stores the 5-tuple defining a goProbe flow (source port excluded):
source IP, destination IP, destination port and protocol, all byte arrays
apart from the protocol byte.  `AggFlowList.Sort` orders a flattened flow
list with `sort.Slice` using `bytes.Compare` on `Sip`, `Dip`, `Dport` and
an unsigned comparison on `Protocol`. -/

/-- `bytes.Compare`: lexicographic three-way comparison of byte slices
(a proper short slice precedes the longer one). -/
def bytesCompare : List Nat → List Nat → Ordering
  | [], [] => .eq
  | [], _ :: _ => .lt
  | _ :: _, [] => .gt
  | a :: as, b :: bs =>
    if a < b then .lt else if b < a then .gt else bytesCompare as bs

/-- Three-way unsigned comparison of protocol bytes. -/
def natCompare (a b : Nat) : Ordering :=
  if a < b then .lt else if b < a then .gt else .eq

/-- `goDB.Key`: the goProbe flow 5-tuple (source port deliberately absent). -/
structure FlowKey where
  sip : List Nat
  dip : List Nat
  dport : List Nat
  protocol : Nat
deriving DecidableEq

/-- `goDB.Val`: the four flow counters (uint64 values). -/
structure FlowVal where
  nBytesRcvd : Nat
  nBytesSent : Nat
  nPktsRcvd : Nat
  nPktsSent : Nat
deriving DecidableEq

/-- `goDB.ListItem`: one entry of a flattened flow map. -/
structure ListItem where
  key : FlowKey
  val : FlowVal
deriving DecidableEq

/-- The `less` closure passed to `sort.Slice` by `AggFlowList.Sort`:
compare `Sip`, `Dip`, `Dport` with `bytes.Compare`, deciding at the first
difference; then compare `Protocol`; equal keys are not less. -/
def flowLess (iv jv : ListItem) : Bool :=
  match bytesCompare iv.key.sip jv.key.sip with
  | .lt => true
  | .gt => false
  | .eq =>
    match bytesCompare iv.key.dip jv.key.dip with
    | .lt => true
    | .gt => false
    | .eq =>
      match bytesCompare iv.key.dport jv.key.dport with
      | .lt => true
      | .gt => false
      | .eq =>
        if iv.key.protocol ≠ jv.key.protocol then
          decide (iv.key.protocol < jv.key.protocol)
        else false

/-- `AggFlowList.Sort`: sorting the list with `sort.Slice` and the `less`
closure above.  `sort.Slice`'s contract is that the result is ordered so
that `less` never holds from a later to an earlier element; we model it by
insertion sort with that relation. -/
def sortFlows (l : List ListItem) : List ListItem :=
  List.insertionSort (fun a b => flowLess b a = false) l

/-- The byte-lexicographic three-way comparison on the tuple
`(sip, dip, dport, proto)` — IPs and dport as byte strings, the protocol
as an unsigned byte. -/
def keyCompare : FlowKey → FlowKey → Ordering :=
  compareLex (Ordering.byKey FlowKey.sip bytesCompare)
    (compareLex (Ordering.byKey FlowKey.dip bytesCompare)
      (compareLex (Ordering.byKey FlowKey.dport bytesCompare)
        (Ordering.byKey FlowKey.protocol natCompare)))

/-! ## DB writer (`pkg/goDB/db_writer.go`) -/

/-- `2^64`, the modulus of Go `uint64` arithmetic. -/
def U64 : Nat := 2 ^ 64

/-- Modelled from the spec: the aggregated flow map of `pkg/types/hashmap`
is not under `src/`; per spec §4.5 it is a hash map keyed by the fixed-width
5-tuple, split into an IPv4 and an IPv6 table, whose `Flatten()` produces
two lists of key/value entries, one per family.  We represent the map by
its two flattened tables. -/
structure AggFlowMap where
  v4 : List ListItem
  v6 : List ListItem

/-- Big-endian byte string of `n` in exactly `w` bytes
(`binary.BigEndian.PutUint64` is `beBytes 8`). -/
def beBytes : Nat → Nat → List Nat
  | 0, _ => []
  | w + 1, n => beBytes w (n / 256) ++ [n % 256]

/-- The unsigned integer value of a big-endian byte string. -/
def beVal (l : List Nat) : Nat :=
  l.foldl (fun acc b => acc * 256 + b) 0

/-- Little-endian 4-byte encoding of a count (`binary.LittleEndian.PutUint32`). -/
def le4 (n : Nat) : List Nat :=
  [n % 256, n / 256 % 256, n / 256 ^ 2 % 256, n / 256 ^ 3 % 256]

/-- Minimum byte width `w ∈ 1…8` needed to represent `m`. -/
def byteWidth (m : Nat) : Nat :=
  if m < 256 ^ 1 then 1
  else if m < 256 ^ 2 then 2
  else if m < 256 ^ 3 then 3
  else if m < 256 ^ 4 then 4
  else if m < 256 ^ 5 then 5
  else if m < 256 ^ 6 then 6
  else if m < 256 ^ 7 then 7
  else 8

/-- Modelled from the spec: `bitpack.Pack` of `pkg/goDB/encoder/bitpack` is
not under `src/`; per spec §4.1 it encodes a sequence of `u64` counters by
choosing the minimum byte width `w ∈ 1…8` for the maximum value of the
sequence, emitting a 1-byte width, a 4-byte little-endian count and
`count·w` packed bytes (big-endian within each width); an all-zero run is
encoded with `w = 0` and no payload. -/
def pack (xs : List Nat) : List Nat :=
  let m := xs.foldl max 0
  if m = 0 then [0] ++ le4 xs.length
  else [byteWidth m] ++ le4 xs.length ++ (xs.map (beBytes (byteWidth m))).flatten

/-- `goDB.InterfaceSummaryUpdate` as used by `dbData`: the written
interface, the block timestamp, the number of flows and the total traffic
(`uint64`, hence reduced mod `2^64`). -/
structure InterfaceSummaryUpdate where
  iface : String
  timestamp : Int
  flowCount : Nat
  traffic : Nat
deriving DecidableEq

/-- Modelled from the spec: `goDB.BlockMetadata` (its declaration is not
under `src/`) is the per-day metadata record
`BlockMetadata{timestamp, flow_count, traffic, packets_dropped}`
(spec §4.4 step 8 and §6). -/
structure BlockMetadata where
  timestamp : Int
  flowCount : Nat
  traffic : Nat
  packetsDropped : Nat
deriving DecidableEq

/-- The eight column byte streams produced by `dbData`, by column name. -/
structure DBColumns where
  sip : List Nat
  dip : List Nat
  dport : List Nat
  proto : List Nat
  bytesRcvd : List Nat
  bytesSent : List Nat
  pktsRcvd : List Nat
  pktsSent : List Nat
deriving DecidableEq

/-- One `Traffic +=` pair of `uint64` additions for a flow. -/
def addTraffic (t : Nat) (f : ListItem) : Nat :=
  ((t + f.val.nBytesRcvd) % U64 + f.val.nBytesSent) % U64

/-- `goDB.dbData`: flatten and sort the v4/v6 flow lists, lay the four
attribute columns out row by row in sorted order (v4 rows then v6 rows),
bit-pack the four counter columns, and prepend the 8-byte big-endian v4
row count to the `bytes_rcvd` column; the summary update counts one flow
per entry and adds up received plus sent bytes. -/
def dbData (iface : String) (timestamp : Int) (m : AggFlowMap) :
    DBColumns × InterfaceSummaryUpdate :=
  let v4List := sortFlows m.v4
  let v6List := sortFlows m.v6
  let allFlows := v4List ++ v6List
  let bytesRcvdCounters := allFlows.map (fun f => f.val.nBytesRcvd)
  let bytesSentCounters := allFlows.map (fun f => f.val.nBytesSent)
  let pktsRcvdCounters := allFlows.map (fun f => f.val.nPktsRcvd)
  let pktsSentCounters := allFlows.map (fun f => f.val.nPktsSent)
  ({ sip := (allFlows.map (fun f => f.key.sip)).flatten
     dip := (allFlows.map (fun f => f.key.dip)).flatten
     dport := (allFlows.map (fun f => f.key.dport)).flatten
     proto := allFlows.map (fun f => f.key.protocol)
     bytesRcvd := beBytes 8 v4List.length ++ pack bytesRcvdCounters
     bytesSent := pack bytesSentCounters
     pktsRcvd := pack pktsRcvdCounters
     pktsSent := pack pktsSentCounters },
   { iface := iface
     timestamp := timestamp
     flowCount := allFlows.length
     traffic := allFlows.foldl addTraffic 0 })

/-- `DBWriter.Write` restricted to its data effects: compute the column
blocks and summary with `dbData`, overwrite the metadata's `FlowCount` and
`Traffic` with the summary values, and append the block metadata to the
per-day `meta.json` block list. -/
def dbWriterWrite (iface : String) (m : AggFlowMap) (meta : BlockMetadata)
    (timestamp : Int) (dayBlocks : List BlockMetadata) :
    List BlockMetadata × DBColumns × InterfaceSummaryUpdate :=
  let r := dbData iface timestamp m
  let meta' := { meta with flowCount := r.2.flowCount, traffic := r.2.traffic }
  (dayBlocks ++ [meta'], r.1, r.2)

/-- A concrete one-flow map used to instantiate the writer theorems. -/
def mapEx : AggFlowMap :=
  { v4 := [{ key := { sip := [1, 2, 3, 4], dip := [5, 6, 7, 8],
                      dport := [0, 80], protocol := 6 },
             val := { nBytesRcvd := 100, nBytesSent := 200,
                      nPktsRcvd := 1, nPktsSent := 2 } }]
    v6 := [] }

/-! ## Day timestamps (`pkg/goDB/db_writer.go`) -/

/-- `EpochDay`: the number of seconds in a day (the spec fixes the day epoch
as UTC seconds floored to 86400; the Go constant lives in a file not under
`src/`). -/
def EpochDay : Int := 86400

/-- `DayTimestamp`: `(timestamp / EpochDay) * EpochDay` with Go's `/` on
`int64`, which truncates toward zero (`Int.tdiv`). -/
def DayTimestamp (timestamp : Int) : Int :=
  (Int.tdiv timestamp EpochDay) * EpochDay

/-! ## Query statement preparation (`pkg/query/args.go`)

`Args.Prepare` validates the query arguments and assembles a `Statement`.
Its collaborators (`PermittedFormats`, `PermittedSortBy`,
`types.ParseQueryType`, `ParseTimeRange`, `conditions.SanitizeUserInput`,
`results.ExcludeManagementNet`, `dns.CheckDNS`, `strings.Contains`, the
constants `MaxResults` and `types.MaxTime`) live outside `src/pkg/query/
args.go`; the embedding takes them as an environment and mirrors
`Prepare`'s control flow and assignment order. -/

/-- The recognized sort orders (`results.SortPackets` etc.). -/
inductive SortOrder where
  | packets
  | traffic
  | time
deriving DecidableEq, Repr

/-- The direction aggregation policies (`types.DirectionSum` etc.). -/
inductive Direction where
  | dirSum
  | dirIn
  | dirOut
  | dirBoth
deriving DecidableEq, Repr

/-- `types.LabelSelector` (the fields `Prepare` touches). -/
structure LabelSelector where
  timestamp : Bool
  iface : Bool
deriving DecidableEq, Repr

/-- The fields of `query.Args` read by `Prepare`. -/
structure QueryArgs where
  query : String
  ifaces : String
  condition : String
  inFlag : Bool
  outFlag : Bool
  sumFlag : Bool
  first : String
  last : String
  format : String
  sortBy : String
  numResults : Int
  sortAscending : Bool
  external : Bool
  dnsEnabled : Bool
  dnsTimeout : Int
  dnsMaxRows : Int
  maxMemPct : Int
  lowMem : Bool
  caller : String
  live : Bool
deriving DecidableEq

/-- The fields of `query.Statement` assigned by `Prepare`. -/
structure Statement where
  queryType : String
  dnsEnabled : Bool
  condition : String
  lowMem : Bool
  caller : String
  live : Bool
  format : String
  sortBy : SortOrder
  selector : LabelSelector
  sortAscending : Bool
  numResults : Int
  first : Int
  last : Int
  direction : Direction
  maxMemPct : Int
deriving DecidableEq

/-- The collaborators of `Prepare` that live outside `args.go`. -/
structure PrepareEnv where
  permittedFormats : String → Bool
  permittedSortBy : String → Option SortOrder
  parseQueryType : String → Except String LabelSelector
  stringContains : String → String → Bool
  parseTimeRange : String → String → Except String (Int × Int)
  excludeManagementNet : String → String
  checkDNS : Except String Unit
  sanitizeUserInput : String → Except String String
  maxResults : Int
  maxTimeUnix : Int

/-- The direction switch of `Prepare` (`switch` on `a.Sum`, `a.In`,
`a.Out`): `Sum` wins, then `In`/`Out` when exactly one is set, otherwise
`Both`. -/
def directionSwitch (sumF inF outF : Bool) : Direction :=
  if sumF then Direction.dirSum
  else if inF && !outF then Direction.dirIn
  else if !inF && outF then Direction.dirOut
  else Direction.dirBoth

/-- The DNS validation of `Prepare`: when resolution is enabled, fail on a
`CheckDNS` error and on non-positive timeout or row limits. -/
def dnsCheckErr (env : PrepareEnv) (a : QueryArgs) : Option String :=
  if a.dnsEnabled then
    match env.checkDNS with
    | .error e => some ("DNS warning: " ++ e)
    | .ok _ =>
      if a.dnsTimeout ≤ 0 then
        some "resolve-timeout must be greater than 0"
      else if a.dnsMaxRows ≤ 0 then
        some "resolve-rows must be greater than 0"
      else none
  else none

/-- `Args.Prepare`, following the source's assignment order.  Note in
particular that the time-query branch assigns `SortBy`, `SortAscending`
and `NumResults = MaxResults`, and that the later row-limit check assigns
`NumResults = a.NumResults` unconditionally.  The final live-query guard
reads `s.Live && s.Last != types.MaxTime.Unix()`; `s.Live` always holds
`a.Live` and `s.Last` the parsed upper time bound. -/
def prepare (env : PrepareEnv) (a : QueryArgs) : Except String Statement :=
  let s : Statement :=
    { queryType := a.query, dnsEnabled := a.dnsEnabled,
      condition := a.condition, lowMem := a.lowMem, caller := a.caller,
      live := a.live, format := "", sortBy := .packets,
      selector := { timestamp := false, iface := false },
      sortAscending := false, numResults := 0, first := 0, last := 0,
      direction := .dirBoth, maxMemPct := 0 }
  if env.permittedFormats a.format = false then
    .error "unknown output format"
  else
    let s := { s with format := a.format }
    match env.permittedSortBy (if a.sortBy = "" then "packets" else a.sortBy) with
    | none => .error "unknown sorting parameter"
    | some ord =>
      let s := { s with sortBy := ord }
      match env.parseQueryType a.query with
      | .error e => .error ("failed to parse query type: " ++ e)
      | .ok sel0 =>
        let sel :=
          if env.stringContains a.ifaces "any"
              && !(env.stringContains a.query "iface") then
            { sel0 with iface := true }
          else sel0
        let s := { s with selector := sel }
        let s :=
          if sel.timestamp then
            { s with sortBy := .time, sortAscending := true,
                     numResults := env.maxResults }
          else s
        match env.parseTimeRange a.first a.last with
        | .error e => .error e
        | .ok fl =>
          let s := { s with first := fl.1, last := fl.2 }
          let flags :=
            if a.external && (a.inFlag && a.outFlag) then
              (true, false, false)
            else (a.sumFlag, a.inFlag, a.outFlag)
          let s :=
            { s with direction := directionSwitch flags.1 flags.2.1 flags.2.2 }
          match dnsCheckErr env a with
          | some e => .error e
          | none =>
            match env.sanitizeUserInput
                (if a.external then env.excludeManagementNet a.condition
                 else a.condition) with
            | .error e => .error ("failed to sanitize condition: " ++ e)
            | .ok cond2 =>
              let s := { s with condition := cond2 }
              if !(0 < a.maxMemPct && a.maxMemPct ≤ 100) then
                .error "invalid memory percentage"
              else
                let s := { s with maxMemPct := a.maxMemPct }
                if !(0 < a.numResults) then
                  .error "the printed row limit must be greater than 0"
                else
                  let s := { s with numResults := a.numResults }
                  if a.live && decide (fl.2 ≠ env.maxTimeUnix) then
                    .error "live query not possible if query has last timestamp"
                  else
                    .ok s

/-- A concrete environment for evaluating `prepare`: JSON format accepted,
the standard sort keys, a query type whose selector requests the time
attribute exactly for the query string "time", permissive parsers, and a
large `MaxResults`. -/
def envEx : PrepareEnv :=
  { permittedFormats := fun f => f == "json"
    permittedSortBy := fun sb =>
      if sb == "packets" then some .packets
      else if sb == "bytes" then some .traffic
      else if sb == "time" then some .time
      else none
    parseQueryType := fun q => .ok { timestamp := q == "time", iface := false }
    stringContains := fun _ _ => false
    parseTimeRange := fun _ _ => .ok (0, 42)
    excludeManagementNet := fun c => c
    checkDNS := .ok ()
    sanitizeUserInput := fun c => .ok c
    maxResults := 1000000000
    maxTimeUnix := 9999 }

/-- Concrete arguments: a time query requesting only 5 result rows. -/
def argsTimeEx : QueryArgs :=
  { query := "time", ifaces := "eth0", condition := "",
    inFlag := false, outFlag := false, sumFlag := false,
    first := "0", last := "42", format := "json", sortBy := "packets",
    numResults := 5, sortAscending := false, external := false,
    dnsEnabled := false, dnsTimeout := 0, dnsMaxRows := 0,
    maxMemPct := 60, lowMem := false, caller := "", live := false }

/-- Concrete arguments: a sip query with both `in` and `out` set and
`sum` unset, `external` unset. -/
def argsBothEx : QueryArgs :=
  { query := "sip", ifaces := "eth0", condition := "",
    inFlag := true, outFlag := true, sumFlag := false,
    first := "0", last := "42", format := "json", sortBy := "packets",
    numResults := 5, sortAscending := false, external := false,
    dnsEnabled := false, dnsTimeout := 0, dnsMaxRows := 0,
    maxMemPct := 60, lowMem := false, caller := "", live := false }


/-- The statement `prepare envEx argsBothEx` produces. -/
def stmtBothEx : Statement :=
  { queryType := "sip", dnsEnabled := false, condition := "",
    lowMem := false, caller := "", live := false, format := "json",
    sortBy := .packets, selector := { timestamp := false, iface := false },
    sortAscending := false, numResults := 5, first := 0, last := 42,
    direction := .dirBoth, maxMemPct := 60 }

/-! ## Supporting lemmas for the block-file invariant -/

/-- One `WriteBlock` advances `CurrentOffset` by exactly the recorded
compressed length of the write (0 for empty block data). -/
theorem writeBlock_currentOffset (compress : List Nat → List Nat)
    (st : GPFileState) (ts : Int) (d : List Nat) :
    (writeBlock compress st ts d).currentOffset
      = st.currentOffset + (writeLen compress (ts, d) : Int) := by
  unfold writeBlock writeLen
  by_cases h : d.length = 0 <;> simp [h]

/-- One `WriteBlock` appends exactly the recorded compressed length of
bytes to the data file. -/
theorem writeBlock_fileLen (compress : List Nat → List Nat)
    (st : GPFileState) (ts : Int) (d : List Nat) :
    (writeBlock compress st ts d).fileData.length
      = st.fileData.length + writeLen compress (ts, d) := by
  unfold writeBlock writeLen
  by_cases h : d.length = 0 <;> simp [h]

/-- Offset and file-size accounting for a whole sequence of writes,
starting from an arbitrary state. -/
theorem applyWrites_accounting (compress : List Nat → List Nat)
    (writes : List (Int × List Nat)) (st : GPFileState) :
    (applyWrites compress writes st).currentOffset
        = st.currentOffset + (sumWriteLens compress writes : Int)
    ∧ (applyWrites compress writes st).fileData.length
        = st.fileData.length + sumWriteLens compress writes := by
  induction writes generalizing st with
  | nil => simp [applyWrites, sumWriteLens]
  | cons w ws ih =>
    have h := ih (writeBlock compress st w.1 w.2)
    constructor
    · calc (applyWrites compress (w :: ws) st).currentOffset
          = (writeBlock compress st w.1 w.2).currentOffset
            + (sumWriteLens compress ws : Int) := h.1
        _ = st.currentOffset + (sumWriteLens compress (w :: ws) : Int) := by
            rw [writeBlock_currentOffset]
            unfold sumWriteLens
            simp
            ring
    · calc (applyWrites compress (w :: ws) st).fileData.length
          = (writeBlock compress st w.1 w.2).fileData.length
            + sumWriteLens compress ws := h.2
        _ = st.fileData.length + sumWriteLens compress (w :: ws) := by
            rw [writeBlock_fileLen]
            unfold sumWriteLens
            simp
            ring

/-- C1: For every sequence of successful `WriteBlock` calls on a block file
opened in write mode starting from a fresh (empty) header, the header's
`current_offset` equals the sum of the compressed lengths of all recorded
blocks in insertion order (empty blocks contributing 0 and not advancing
the offset), and this value equals the physical size of the `.gpf` data
file. -/
theorem currentOffset_eq_sum_block_lens_and_file_size
    (compress : List Nat → List Nat) (writes : List (Int × List Nat)) :
    (applyWrites compress writes freshGPFile).currentOffset
        = (sumWriteLens compress writes : Int)
    ∧ ((applyWrites compress writes freshGPFile).fileData.length : Int)
        = (applyWrites compress writes freshGPFile).currentOffset := by
  have h := applyWrites_accounting compress writes freshGPFile
  constructor
  · simpa [freshGPFile] using h.1
  · rw [h.2, h.1]
    simp [freshGPFile]

/-- C3 (counterexample): `writeHeader` performs a single direct
`ioutil.WriteFile` of the marshalled header — its filesystem trace contains
no rename (so there is no write-temp + rename step), and interrupting the
truncating write (here: after 1 of 3 bytes) leaves sidecar contents that
are neither the complete previous header bytes (`[9, 9, 9]`) nor the
complete new header bytes (`[1, 7, 7]`). -/
theorem writeHeader_not_atomic_cex :
    writeHeaderOps (fun h => [h.version, 7, 7]) "col.gpf" freshHeader
        = [FsOp.writeFile "col.gpf.meta" [1, 7, 7]]
    ∧ (writeHeaderOps (fun h => [h.version, 7, 7]) "col.gpf"
        freshHeader).filter (fun op => op.isRename) = []
    ∧ interruptedWriteFile [1, 7, 7] 1 ≠ [9, 9, 9]
    ∧ interruptedWriteFile [1, 7, 7] 1 ≠ [1, 7, 7] := by
  refine ⟨rfl, rfl, ?_, ?_⟩ <;> simp [interruptedWriteFile]

/-- C3 (amended): every `writeHeader` call rewrites the sidecar `.meta`
with one single direct whole-file write of the marshalled header (no
temporary file, no rename). -/
theorem writeHeader_single_direct_write (marshal : BlockHeader → List Nat)
    (filename : String) (h : BlockHeader) :
    writeHeaderOps marshal filename h
      = [FsOp.writeFile (filename ++ ".meta") (marshal h)] := rfl

/-- C6: `WriteBlock(ts, bytes)` with empty `bytes` records a block
`{offset = current_offset, len = 0, raw_len = 0, encoder = default}` in the
header and flushes the header — its sidecar trace is the single
`writeHeader()` write of the marshalled header that holds the new zero
block and is otherwise the previous header — while appending no data to
the `.gpf` file and leaving `current_offset`, the header version and all
blocks recorded at other timestamps unchanged. -/
theorem writeBlock_empty_frame (compress : List Nat → List Nat)
    (st : GPFileState) (ts : Int) :
    (writeBlock compress st ts []).blocks ts
        = some { offset := st.currentOffset, len := 0, rawLen := 0,
                 encoderType := defaultEncoderType }
    ∧ (writeBlock compress st ts []).fileData = st.fileData
    ∧ (writeBlock compress st ts []).currentOffset = st.currentOffset
    ∧ (writeBlock compress st ts []).version = st.version
    ∧ (∀ (marshal : BlockHeader → List Nat) (filename : String),
        writeBlockSidecarOps compress marshal filename st ts []
          = [FsOp.writeFile (filename ++ ".meta")
              (marshal { blocks := fun ts' =>
                           if ts' = ts then
                             some { offset := st.currentOffset, len := 0,
                                    rawLen := 0,
                                    encoderType := defaultEncoderType }
                           else st.blocks ts',
                         currentOffset := st.currentOffset,
                         version := st.version })])
    ∧ ∀ ts', ts' ≠ ts → (writeBlock compress st ts []).blocks ts'
        = st.blocks ts' := by
  refine ⟨?_, ?_, ?_, ?_, ?_, ?_⟩
  · simp [writeBlock]
  · simp [writeBlock]
  · simp [writeBlock]
  · simp [writeBlock]
  · intro marshal filename
    simp [writeBlockSidecarOps, writeHeaderOps, headerOf, writeBlock]
  · intro ts' hne
    simp [writeBlock, hne]

/-- Witness for C6 at a concrete state: an empty write at timestamp 0 on a
fresh file leaves the block slot of timestamp 1 untouched. -/
theorem writeBlock_empty_frame_witness :
    (writeBlock (fun d => d) freshGPFile 0 []).blocks 1
      = freshGPFile.blocks 1 :=
  (writeBlock_empty_frame (fun d => d) freshGPFile 0).2.2.2.2.2 1 (by decide)

/-- C7: when the sidecar `.meta` does not exist, opening in write mode
initializes a fresh header with `version = 1` and an empty block map,
opening in read mode fails with the missing-header error, and any other
error while reading the sidecar is propagated. -/
theorem readHeader_missing_sidecar
    (unmarshal : List Nat → Except String BlockHeader) :
    readHeader unmarshal .write .notExist = .ok freshHeader
    ∧ freshHeader.version = 1
    ∧ (∀ ts, freshHeader.blocks ts = none)
    ∧ readHeader unmarshal .read .notExist = .error .missingHeader
    ∧ ∀ e mode, readHeader unmarshal mode (.ioError e)
        = .error (.propagated e) := by
  refine ⟨rfl, rfl, fun _ => rfl, rfl, fun _ _ => rfl⟩

/-- C9 (counterexample): `DayTimestamp (-1)` is `0`, which is not a
lower-or-equal multiple of 86400 for `-1` (the UTC midnight of the day
containing `-1` would be `-86400`); Go's integer division truncates toward
zero rather than flooring. -/
theorem dayTimestamp_negative_cex :
    DayTimestamp (-1) = 0 ∧ ¬ DayTimestamp (-1) ≤ -1
      ∧ DayTimestamp (-1) ≠ -86400 := by
  refine ⟨by decide, by decide, by decide⟩

/-- C9 (amended): for every non-negative int64 timestamp `t`,
`DayTimestamp t` is `t` floored to the nearest lower-or-equal multiple of
86400. -/
theorem dayTimestamp_floor (t : Int) (ht : 0 ≤ t) :
    DayTimestamp t ≤ t ∧ t < DayTimestamp t + EpochDay
      ∧ EpochDay ∣ DayTimestamp t := by
  unfold DayTimestamp EpochDay
  rw [Int.tdiv_eq_ediv ht (by norm_num)]
  refine ⟨?_, ?_, ⟨t / 86400, by ring⟩⟩ <;> omega

/-! ## Comparator lemmas and the sortedness of `AggFlowList.Sort` -/

/-- `bytes.Compare` is oriented: swapping the arguments swaps the result. -/
theorem bytesCompare_swap : ∀ (a b : List Nat),
    (bytesCompare a b).swap = bytesCompare b a
  | [], [] => rfl
  | [], _ :: _ => rfl
  | _ :: _, [] => rfl
  | a :: as, b :: bs => by
    by_cases h1 : a < b
    · simp [bytesCompare, h1, show ¬ b < a by omega, Ordering.swap]
    · by_cases h2 : b < a
      · simp [bytesCompare, h1, h2, Ordering.swap]
      · simpa [bytesCompare, h1, h2] using bytesCompare_swap as bs

/-- `bytes.Compare` is transitive in its induced non-strict order. -/
theorem bytesCompare_le_trans : ∀ (a b c : List Nat),
    bytesCompare a b ≠ .gt → bytesCompare b c ≠ .gt → bytesCompare a c ≠ .gt
  | [], _, c, _, _ => by cases c <;> simp [bytesCompare]
  | _ :: _, [], _, h1, _ => by simp [bytesCompare] at h1
  | _ :: _, _ :: _, [], _, h2 => by simp [bytesCompare] at h2
  | x :: xs, y :: ys, z :: zs, h1, h2 => by
    simp only [bytesCompare] at h1 h2 ⊢
    rcases Nat.lt_trichotomy x y with hxy | hxy | hxy
    · rcases Nat.lt_trichotomy y z with hyz | hyz | hyz
      · simp [show x < z by omega]
      · simp [show x < z by omega]
      · simp [show ¬ y < z by omega, hyz] at h2
    · subst hxy
      simp only [lt_irrefl, if_false] at h1
      rcases Nat.lt_trichotomy x z with hxz | hxz | hxz
      · simp [hxz]
      · subst hxz
        simp only [lt_irrefl, if_false] at h2 ⊢
        exact bytesCompare_le_trans xs ys zs h1 h2
      · simp [show ¬ x < z by omega, hxz] at h2
    · simp [show ¬ x < y by omega, hxy] at h1

instance : Batteries.TransCmp bytesCompare where
  symm a b := bytesCompare_swap a b
  le_trans h1 h2 := bytesCompare_le_trans _ _ _ h1 h2

instance : Batteries.TransCmp natCompare where
  symm a b := by
    rcases Nat.lt_trichotomy a b with h | h | h
    · simp [natCompare, h, show ¬ b < a by omega, Ordering.swap]
    · simp [natCompare, h, Ordering.swap]
    · simp [natCompare, h, show ¬ a < b by omega, Ordering.swap]
  le_trans {a b c} h1 h2 := by
    unfold natCompare at h1 h2 ⊢
    have hab : a ≤ b := by
      by_contra h
      simp [show ¬ a < b by omega, show b < a by omega] at h1
    have hbc : b ≤ c := by
      by_contra h
      simp [show ¬ b < c by omega, show c < b by omega] at h2
    by_cases hac : a < c <;> simp [hac, show ¬ c < a by omega]

instance : Batteries.TransCmp keyCompare :=
  inferInstanceAs (Batteries.TransCmp
    (compareLex (Ordering.byKey FlowKey.sip bytesCompare)
      (compareLex (Ordering.byKey FlowKey.dip bytesCompare)
        (compareLex (Ordering.byKey FlowKey.dport bytesCompare)
          (Ordering.byKey FlowKey.protocol natCompare)))))

/-- The `sort.Slice` closure of `AggFlowList.Sort` holds exactly when the
byte-lexicographic tuple comparison yields `lt`. -/
theorem flowLess_iff (iv jv : ListItem) :
    flowLess iv jv = true ↔ keyCompare iv.key jv.key = .lt := by
  unfold flowLess keyCompare
  simp only [compareLex, Ordering.byKey]
  cases h1 : bytesCompare iv.key.sip jv.key.sip
  case lt => simp [Ordering.then]
  case gt => simp [Ordering.then]
  case eq =>
    simp only [Ordering.then]
    cases h2 : bytesCompare iv.key.dip jv.key.dip
    case lt => simp [Ordering.then]
    case gt => simp [Ordering.then]
    case eq =>
      simp only [Ordering.then]
      cases h3 : bytesCompare iv.key.dport jv.key.dport
      case lt => simp [Ordering.then]
      case gt => simp [Ordering.then]
      case eq =>
        simp only [Ordering.then]
        rcases Nat.lt_trichotomy iv.key.protocol jv.key.protocol with h | h | h
        · simp [natCompare, h, show iv.key.protocol ≠ jv.key.protocol by omega]
        · simp [natCompare, h]
        · simp [natCompare, h, show ¬ iv.key.protocol < jv.key.protocol by omega,
            show iv.key.protocol ≠ jv.key.protocol by omega]

/-- The relation in which `sort.Slice` leaves the list, restated through
the tuple comparison. -/
theorem flowLess_false_iff (a b : ListItem) :
    (flowLess b a = false) ↔ keyCompare a.key b.key ≠ Ordering.gt := by
  constructor
  · intro h hgt
    have hlt : keyCompare b.key a.key = .lt := Batteries.OrientedCmp.cmp_eq_gt.1 hgt
    have := (flowLess_iff b a).2 hlt
    rw [h] at this
    cases this
  · intro h
    by_contra hne
    have htrue : flowLess b a = true := by
      cases hfb : flowLess b a
      · exact absurd hfb hne
      · rfl
    exact h (Batteries.OrientedCmp.cmp_eq_gt.2 ((flowLess_iff b a).1 htrue))

/-- C2: for every flow list, flattening followed by `Sort` yields a list
that is byte-lexicographically non-decreasing on `(sip, dip, dport, proto)`
(IPs and dport compared as byte strings, proto as an unsigned byte). -/
theorem sortFlows_sorted_byteLex (l : List ListItem) :
    (sortFlows l).Sorted (fun a b => keyCompare a.key b.key ≠ Ordering.gt) := by
  haveI : IsTrans ListItem (fun a b => flowLess b a = false) :=
    ⟨fun a b c hab hbc =>
      (flowLess_false_iff a c).2
        (Batteries.TransCmp.le_trans ((flowLess_false_iff a b).1 hab)
          ((flowLess_false_iff b c).1 hbc))⟩
  haveI : IsTotal ListItem (fun a b => flowLess b a = false) := by
    constructor
    intro a b
    by_cases h : flowLess b a = false
    · exact Or.inl h
    · right
      have htrue : flowLess b a = true := by
        cases hfb : flowLess b a
        · exact absurd hfb h
        · rfl
      have hlt : keyCompare b.key a.key = .lt := (flowLess_iff b a).1 htrue
      cases hfa : flowLess a b
      · rfl
      · exact absurd ((flowLess_iff a b).1 hfa)
          (Batteries.TransCmp.lt_asymm hlt)
  have hs := List.sorted_insertionSort (fun a b => flowLess b a = false) l
  exact hs.imp (fun {a b} hab => (flowLess_false_iff a b).1 hab)

/-! ## DB writer lemmas -/

/-- A big-endian encoding in `w` bytes is exactly `w` bytes long. -/
theorem length_beBytes : ∀ (w n : Nat), (beBytes w n).length = w
  | 0, _ => rfl
  | w + 1, n => by simp [beBytes, length_beBytes w (n / 256)]

/-- The value of a `w`-byte big-endian encoding is the argument reduced
modulo `256^w`. -/
theorem beVal_beBytes : ∀ (w n : Nat), beVal (beBytes w n) = n % 256 ^ w
  | 0, n => by simp [beBytes, beVal, Nat.mod_one]
  | w + 1, n => by
    have ih := beVal_beBytes w (n / 256)
    have happ : beVal (beBytes w (n / 256) ++ [n % 256])
        = beVal (beBytes w (n / 256)) * 256 + n % 256 := by
      simp [beVal, List.foldl_append]
    have hmul : (256 : Nat) ^ (w + 1) = 256 * 256 ^ w := by ring
    rw [beBytes, happ, ih, hmul, Nat.mod_mul]
    ring

/-- The traffic accumulation of `dbData` computes the `uint64` sum of the
per-flow received-plus-sent bytes. -/
theorem foldl_addTraffic : ∀ (l : List ListItem) (t : Nat),
    l.foldl addTraffic (t % U64)
      = (t + (l.map (fun f => f.val.nBytesRcvd + f.val.nBytesSent)).sum) % U64
  | [], t => by simp
  | f :: fs, t => by
    have hstep : addTraffic (t % U64) f
        = (t + f.val.nBytesRcvd + f.val.nBytesSent) % U64 := by
      unfold addTraffic
      rw [Nat.mod_add_mod, Nat.add_assoc, Nat.mod_add_mod, ← Nat.add_assoc]
    have ih := foldl_addTraffic fs (t + f.val.nBytesRcvd + f.val.nBytesSent)
    rw [List.foldl_cons, hstep, ih]
    simp only [List.map_cons, List.sum_cons]
    congr 1
    ring

/-- Sorting both family lists preserves the multiset of flows, hence the
mapped sums. -/
theorem sortFlows_append_perm (l₁ l₂ : List ListItem) :
    (sortFlows l₁ ++ sortFlows l₂).Perm (l₁ ++ l₂) :=
  (List.perm_insertionSort _ l₁).append (List.perm_insertionSort _ l₂)

/-- C4: the `bytes_rcvd` column produced for a flow map begins with an
8-byte big-endian value equal to the number of IPv4 flows in the map,
followed by the bit-packed bytes-received counters; the three other
counter columns are bare bit-packed streams and the four attribute columns
are bare concatenations of the per-row attribute bytes — none of them
carries such a count. -/
theorem dbData_bytesRcvd_v4_count (iface : String) (ts : Int)
    (m : AggFlowMap) (h : m.v4.length < U64) :
    (dbData iface ts m).1.bytesRcvd
        = beBytes 8 m.v4.length
            ++ pack ((sortFlows m.v4 ++ sortFlows m.v6).map
                (fun f => f.val.nBytesRcvd))
    ∧ (beBytes 8 m.v4.length).length = 8
    ∧ beVal (beBytes 8 m.v4.length) = m.v4.length
    ∧ (dbData iface ts m).1.bytesSent
        = pack ((sortFlows m.v4 ++ sortFlows m.v6).map
            (fun f => f.val.nBytesSent))
    ∧ (dbData iface ts m).1.pktsRcvd
        = pack ((sortFlows m.v4 ++ sortFlows m.v6).map
            (fun f => f.val.nPktsRcvd))
    ∧ (dbData iface ts m).1.pktsSent
        = pack ((sortFlows m.v4 ++ sortFlows m.v6).map
            (fun f => f.val.nPktsSent))
    ∧ (dbData iface ts m).1.sip
        = ((sortFlows m.v4 ++ sortFlows m.v6).map (fun f => f.key.sip)).flatten
    ∧ (dbData iface ts m).1.dip
        = ((sortFlows m.v4 ++ sortFlows m.v6).map (fun f => f.key.dip)).flatten
    ∧ (dbData iface ts m).1.dport
        = ((sortFlows m.v4 ++ sortFlows m.v6).map (fun f => f.key.dport)).flatten
    ∧ (dbData iface ts m).1.proto
        = (sortFlows m.v4 ++ sortFlows m.v6).map (fun f => f.key.protocol) := by
  have hlen : (sortFlows m.v4).length = m.v4.length :=
    List.length_insertionSort _ _
  refine ⟨?_, length_beBytes 8 _, ?_, rfl, rfl, rfl, rfl, rfl, rfl, rfl⟩
  · show beBytes 8 (sortFlows m.v4).length ++ _ = _
    rw [hlen]
  · rw [beVal_beBytes]
    exact Nat.mod_eq_of_lt (by simpa [U64] using h)

/-- Witness for C4: evaluating the v4-count header of `mapEx`. -/
theorem dbData_bytesRcvd_v4_count_witness :
    mapEx.v4.length < U64
      ∧ beVal (beBytes 8 mapEx.v4.length) = mapEx.v4.length :=
  ⟨by norm_num [mapEx, U64],
   (dbData_bytesRcvd_v4_count "eth0" 0 mapEx
     (by norm_num [mapEx, U64])).2.2.1⟩

/-- C5: the `BlockMetadata` record appended to the per-day block list by
`DBWriter.Write` has `flow_count` equal to the total number of entries of
the flow map (IPv4 plus IPv6) and `traffic` equal to the `uint64` sum,
over all entries, of bytes received plus bytes sent. -/
theorem write_metadata_flow_count_traffic (iface : String) (m : AggFlowMap)
    (meta : BlockMetadata) (ts : Int) (dayBlocks : List BlockMetadata) :
    (dbWriterWrite iface m meta ts dayBlocks).1
      = dayBlocks ++ [{ meta with
          flowCount := m.v4.length + m.v6.length,
          traffic := ((m.v4 ++ m.v6).map
            (fun f => f.val.nBytesRcvd + f.val.nBytesSent)).sum % U64 }] := by
  have hcount : (sortFlows m.v4 ++ sortFlows m.v6).length
      = m.v4.length + m.v6.length := by
    simp [sortFlows, List.length_insertionSort]
  have htraffic : (sortFlows m.v4 ++ sortFlows m.v6).foldl addTraffic 0
      = ((m.v4 ++ m.v6).map
          (fun f => f.val.nBytesRcvd + f.val.nBytesSent)).sum % U64 := by
    have h0 : (0 : Nat) = 0 % U64 := (Nat.zero_mod _).symm
    rw [h0, foldl_addTraffic]
    have hperm := (sortFlows_append_perm m.v4 m.v6).map
      (fun f => f.val.nBytesRcvd + f.val.nBytesSent)
    rw [hperm.sum_eq]
    simp
  have hrfl : (dbWriterWrite iface m meta ts dayBlocks).1
      = dayBlocks ++ [{ meta with
          flowCount := (sortFlows m.v4 ++ sortFlows m.v6).length,
          traffic := (sortFlows m.v4 ++ sortFlows m.v6).foldl addTraffic 0 }] :=
    rfl
  rw [hrfl, hcount, htraffic]

/-- Witness for C9 (amended) at `t = 100000`. -/
theorem dayTimestamp_floor_witness :
    DayTimestamp 100000 ≤ 100000 ∧ (100000 : Int) < DayTimestamp 100000 + EpochDay
      ∧ EpochDay ∣ DayTimestamp 100000 :=
  dayTimestamp_floor 100000 (by decide)

/-! ## Statement preparation theorems -/

/-- C8 (code evaluation): for the concrete time query `argsTimeEx`
(whose selector requests the time attribute) with `num_results = 5`,
`Prepare` returns a statement whose sort key is time and sort order
ascending, but whose row limit is the requested 5 rather than
`MaxResults = 1000000000`: the row-limit check near the end of `Prepare`
overwrites the forced maximum with `a.NumResults`. -/
theorem prepare_time_query_row_limit_overwritten :
    (prepare envEx argsTimeEx).map
        (fun s => (s.sortBy, s.sortAscending, s.numResults))
      = .ok (SortOrder.time, true, 5)
    ∧ envEx.maxResults = 1000000000 := by
  constructor
  · simp [prepare, envEx, argsTimeEx, Except.map, dnsCheckErr, directionSwitch]
  · rfl

set_option maxHeartbeats 1600000 in
/-- C10: with the `External` flag unset, `Prepare` maps the three boolean
direction flags to the statement's direction policy as: `sum` yields Sum;
`in` and not `out` yields In; `out` and not `in` yields Out; every other
combination — including both `in` and `out` set simultaneously — yields
Both (not Sum). -/
theorem prepare_direction_policy (env : PrepareEnv) (a : QueryArgs)
    (s : Statement) (hext : a.external = false)
    (h : prepare env a = .ok s) :
    s.direction = directionSwitch a.sumFlag a.inFlag a.outFlag
    ∧ (a.sumFlag = false → a.inFlag = true → a.outFlag = true →
        s.direction = Direction.dirBoth ∧ s.direction ≠ Direction.dirSum) := by
  have main : s.direction = directionSwitch a.sumFlag a.inFlag a.outFlag := by
    unfold prepare at h
    rw [hext] at h
    cases hf : env.permittedFormats a.format <;> rw [hf] at h
    · exact Except.noConfusion h
    cases hso : env.permittedSortBy
        (if a.sortBy = "" then "packets" else a.sortBy) <;> rw [hso] at h
    · exact Except.noConfusion h
    cases hpq : env.parseQueryType a.query <;> rw [hpq] at h
    · exact Except.noConfusion h
    case ok sel0 =>
    cases htr : env.parseTimeRange a.first a.last <;> rw [htr] at h
    · exact Except.noConfusion h
    case ok fl =>
    cases hd : dnsCheckErr env a <;> rw [hd] at h
    case some => exact Except.noConfusion h
    cases hsan : env.sanitizeUserInput
        (if false = true then env.excludeManagementNet a.condition
         else a.condition) <;> rw [hsan] at h
    · exact Except.noConfusion h
    cases hmem : (!(decide (0 < a.maxMemPct) && decide (a.maxMemPct ≤ 100)))
      <;> rw [hmem] at h
    case true => exact Except.noConfusion h
    cases hnum : (!decide (0 < a.numResults)) <;> rw [hnum] at h
    case true => exact Except.noConfusion h
    simp at h
    by_cases hl : a.live = true ∧ ¬fl.2 = env.maxTimeUnix
    · rw [if_pos hl] at h
      exact Except.noConfusion h
    · rw [if_neg hl] at h
      injection h with h'
      subst h'
      simp
  refine ⟨main, ?_⟩
  intro hs hi ho
  rw [main]
  simp [directionSwitch, hs, hi, ho]

/-- Witness for C10: applying the direction-policy theorem to the concrete
arguments with both `in` and `out` set, `sum` and `External` unset. -/
theorem prepare_direction_policy_witness :
    stmtBothEx.direction
        = directionSwitch argsBothEx.sumFlag argsBothEx.inFlag
            argsBothEx.outFlag
    ∧ (argsBothEx.sumFlag = false → argsBothEx.inFlag = true →
        argsBothEx.outFlag = true →
        stmtBothEx.direction = Direction.dirBoth
          ∧ stmtBothEx.direction ≠ Direction.dirSum) :=
  prepare_direction_policy envEx argsBothEx stmtBothEx rfl rfl

end GoProbe
